import Mathlib

/-!
Verification of the NepremicnineMaps repository.

This file gives a shallow embedding, in Lean 4, of the parts of the
repository that the specification's claims talk about:

* the geocoder `geocodeTown` and its batch driver `geocodeTownsAndAttach`
  (netlify geocoding function);
* the scrape-card field extraction (`title` / `town` heuristic of the
  `page.evaluate` callback);
* the two HTTP handlers (scrape endpoint and geocoding endpoint), with the
  effectful browser pipeline abstracted to its success/failure outcome;
* the client-side `groupByCoord` / `fanOutGroup` marker fan-out.

Modelling conventions:

* JavaScript strings are Lean `String`s (lists of characters); the relevant
  string operations (`trim`, `lastIndexOf(",")`, `slice`) are modelled
  character-exactly below.
* JavaScript `null`/`undefined` is `Option.none`.
* JavaScript numbers are modelled as rationals `ℚ`.  The claims under
  verification depend only on parse success/failure, equality and record
  structure, never on binary floating-point rounding, so `ℚ` is a faithful
  carrier for them.
* The network is an oracle `GeoOracle` mapping a query string to either a
  thrown error (`Except.error`, covering fetch rejections and non-ok HTTP
  statuses, which the source turns into a `throw`) or the parsed JSON body.
* Effectful functions are modelled as pure functions that additionally
  return the new cache state and the list of external queries issued, in
  order; "the function throws" is representable only through the oracle,
  and `geocodeTown` is total (it never propagates an oracle error).
-/

/-! ## JavaScript string primitives -/

/-- The characters treated as whitespace by JavaScript's `String.prototype.trim`
(ECMAScript WhiteSpace and LineTerminator code points). -/
def isJsWhitespace (c : Char) : Bool :=
  c ∈ ['\t', '\n', '\u000B', '\u000C', '\r', ' ', '\u00A0', '\u1680',
       '\u2000', '\u2001', '\u2002', '\u2003', '\u2004', '\u2005', '\u2006',
       '\u2007', '\u2008', '\u2009', '\u200A', '\u2028', '\u2029', '\u202F',
       '\u205F', '\u3000', '\uFEFF']

/-- Remove leading and trailing JavaScript whitespace from a character list. -/
def trimChars (l : List Char) : List Char :=
  ((l.dropWhile isJsWhitespace).reverse.dropWhile isJsWhitespace).reverse

/-- Model of JavaScript `s.trim()`. -/
def jsTrim (s : String) : String :=
  ⟨trimChars s.data⟩

/-- Index (in characters) of the last `','` in a list, if any: model of
JavaScript `s.lastIndexOf(",")` restricted to the found case. -/
def lastCommaIdx : List Char → Option Nat
  | [] => none
  | c :: rest =>
    match lastCommaIdx rest with
    | some i => some (i + 1)
    | none => if c = ',' then some 0 else none

/-- Model of JavaScript `parseFloat` on the inputs relevant here: optional
leading whitespace, an optional sign, then a decimal literal
(`digits`, `digits.digits` or `.digits`); any trailing characters are
ignored (prefix semantics).  `none` models the `NaN` outcome.  Exponent
notation and the `Infinity` literals are outside the inputs the claims
exercise and are not modelled. -/
def parseFloatQ (s : String) : Option ℚ :=
  let l := s.data.dropWhile isJsWhitespace
  let sign : ℚ × List Char :=
    match l with
    | '-' :: r => (-1, r)
    | '+' :: r => (1, r)
    | _ => (1, l)
  let intPart := sign.2.takeWhile Char.isDigit
  let afterInt := sign.2.dropWhile Char.isDigit
  let fracPart :=
    match afterInt with
    | '.' :: r => r.takeWhile Char.isDigit
    | _ => []
  let digitsVal : List Char → Nat := fun ds =>
    ds.foldl (fun acc c => 10 * acc + (c.toNat - '0'.toNat)) 0
  if intPart.isEmpty ∧ fracPart.isEmpty then none
  else
    some (sign.1 *
      ((digitsVal intPart : ℚ) + (digitsVal fracPart : ℚ) / (10 ^ fracPart.length)))

/-! ## Geocoder data model (netlify geocoding function) -/

/-- `{ lat, lon }` with nullable coordinates, the value type of `GEO_CACHE`. -/
structure GeoCoord where
  lat : Option ℚ
  lon : Option ℚ
deriving DecidableEq, Repr

/-- One match object of a Nominatim JSON response; `lat`/`lon` are the raw
string fields, absent or `null` modelled as `none`. -/
structure NomMatch where
  lat : Option String
  lon : Option String
deriving DecidableEq, Repr

/-- The parsed JSON body of a successful Nominatim response: either not an
array at all (treated as empty by the source's `Array.isArray` guards) or an
array of match objects. -/
inductive JsonData where
  | nonArray : JsonData
  | arr : List NomMatch → JsonData
deriving DecidableEq, Repr

/-- The source's emptiness test `!Array.isArray(data) || data.length === 0`. -/
def isEmptyData : JsonData → Bool
  | .nonArray => true
  | .arr ms => ms.isEmpty

/-- The network oracle: for each query string, `queryNominatim` either throws
(fetch rejection or non-ok HTTP status) or returns the parsed JSON body. -/
abbrev GeoOracle := String → Except Unit JsonData

/-- The warm in-memory `GEO_CACHE` `Map`, as an insertion-ordered association
list. -/
abbrev GeoCache := List (String × GeoCoord)

/-- `GEO_CACHE.has(k)`. -/
def cacheHas (c : GeoCache) (k : String) : Bool :=
  c.any (fun kv => kv.1 == k)

/-- `GEO_CACHE.get(k)` (also used for plain-object lookup `map[k]`). -/
def cacheGet (c : GeoCache) (k : String) : Option GeoCoord :=
  (c.find? (fun kv => kv.1 == k)).map (fun kv => kv.2)

/-- `GEO_CACHE.set(k, v)`: replace in place if the key is present, else
append (JavaScript `Map` keeps first-insertion order). -/
def cacheSet (c : GeoCache) (k : String) (v : GeoCoord) : GeoCache :=
  if cacheHas c k then
    c.map (fun kv => if kv.1 == k then (k, v) else kv)
  else
    c ++ [(k, v)]

/-- `(townRaw || "").trim()`: the normalized town key used throughout the
geocoding function (`townRaw` may be `null`/`undefined`). -/
def townOf (townRaw : Option String) : String :=
  jsTrim (townRaw.getD "")

/-- The final acceptance check of `geocodeTown` (source lines 74-82): the
result is the parsed first match when the response is a non-empty array whose
first match has non-null `lat` and `lon` that both `parseFloat` to a number,
and `{ lat: null, lon: null }` otherwise. -/
def acceptResult : JsonData → GeoCoord
  | .arr (m :: _) =>
    match m.lat, m.lon with
    | some slat, some slon =>
      match parseFloatQ slat, parseFloatQ slon with
      | some la, some lo => ⟨some la, some lo⟩
      | _, _ => ⟨none, none⟩
    | _, _ => ⟨none, none⟩
  | _ => ⟨none, none⟩

/-- The progressive-stripping `while` loop of `geocodeTown` (source lines
62-72), with the current response `data` and current candidate `townToTry`.
Each iteration strictly shortens `townToTry` (`slice(0, lastCommaIndex)`), so
`townToTry.length` bounds the iteration count; the explicit `fuel` argument
makes that bound structural.  Returns the final `data` (or the propagated
thrown error) and the queries issued, in order. -/
def progLoopF (f : GeoOracle) : Nat → JsonData → String →
    Except Unit JsonData × List String
  | 0, data, _ => (.ok data, [])
  | fuel + 1, data, townToTry =>
    if isEmptyData data then
      match lastCommaIdx townToTry.data with
      | none => (.ok data, [])
      | some i =>
        let next : String := ⟨townToTry.data.take i⟩
        match f next with
        | .error _ => (.error (), [next])
        | .ok d =>
          let res := progLoopF f fuel d next
          (res.1, next :: res.2)
    else (.ok data, [])

/-- The progressive-stripping loop at its sufficient fuel. -/
def progLoop (f : GeoOracle) (data : JsonData) (townToTry : String) :
    Except Unit JsonData × List String :=
  progLoopF f (townToTry.length + 1) data townToTry

/-- The body of `geocodeTown`'s `try` block (source lines 56-72): plain
query, then the `", Slovenia"`-suffixed query, then the progressive loop,
each phase entered only while the response is still empty.  Returns the final
response (or the thrown error) and the queries issued, in order. -/
def runChain (f : GeoOracle) (town : String) :
    Except Unit JsonData × List String :=
  match f town with
  | .error _ => (.error (), [town])
  | .ok d1 =>
    if isEmptyData d1 then
      let q2 := town ++ ", Slovenia"
      match f q2 with
      | .error _ => (.error (), [town, q2])
      | .ok d2 =>
        let rest := progLoop f d2 town
        (rest.1, town :: q2 :: rest.2)
    else (.ok d1, [town])

/-- The observable outcome of one `geocodeTown` call: the returned
`{ lat, lon }`, the `GEO_CACHE` after the call, and the external queries
issued, in order. -/
structure GeoRun where
  result : GeoCoord
  cache : GeoCache
  queries : List String
deriving DecidableEq, Repr

/-- Model of `geocodeTown(townRaw, log)` (netlify geocoding function, source
lines 20-93): trim, early return on empty/`"No town"`, cache hit, otherwise
run the fallback chain; a thrown error is caught and cached as
`{ lat: null, lon: null }`.  The model is total: no input makes it propagate
an error to the caller. -/
def geocodeTown (f : GeoOracle) (cache : GeoCache) (townRaw : Option String) :
    GeoRun :=
  let town := townOf townRaw
  if town = "" ∨ town = "No town" then ⟨⟨none, none⟩, cache, []⟩
  else if cacheHas cache town then
    ⟨(cacheGet cache town).getD ⟨none, none⟩, cache, []⟩
  else
    match runChain f town with
    | (.error _, qs) => ⟨⟨none, none⟩, cacheSet cache town ⟨none, none⟩, qs⟩
    | (.ok d, qs) =>
      let r := acceptResult d
      ⟨r, cacheSet cache town r, qs⟩

/-! ## Spec-side description of the fallback query sequence

The following definitions transcribe the specification's description of the
query strategy ("plain name; then the name with a fixed country suffix; then
successively shorter prefixes of the original name obtained by repeatedly
removing the last comma-delimited segment, stopping at first success or when
no comma remains").  They are compared with the code-side `geocodeTown`
model by the theorems below. -/

/-- The successively shorter prefixes obtained by repeatedly removing the
last comma-delimited segment; the sequence ends with the first prefix that
contains no comma.  Each step strictly shortens the list, so its length
bounds the number of steps (structural `fuel`). -/
def stripCandsF : Nat → List Char → List (List Char)
  | 0, _ => []
  | fuel + 1, l =>
    match lastCommaIdx l with
    | none => []
    | some i => l.take i :: stripCandsF fuel (l.take i)

/-- The progressive-stripping candidates at a given fuel, as strings. -/
def stripCandsStr (fuel : Nat) (town : String) : List String :=
  (stripCandsF fuel town.data).map (fun l => ⟨l⟩)

/-- The progressive-stripping candidates of a town name, as strings
(`town.length + 1` is more than enough fuel: every step strictly shortens
the candidate). -/
def stripCandidates (town : String) : List String :=
  stripCandsStr (town.length + 1) town

/-- The full candidate query sequence for a (trimmed, non-empty,
non-sentinel) town name, in the order the specification states it. -/
def candidates (town : String) : List String :=
  town :: (town ++ ", Slovenia") :: stripCandidates town

/-- Walk a candidate list against a (never-throwing) response function `g`,
stopping at the first candidate whose response is non-empty; returns the
final response (`dflt` if the list is exhausted without querying, otherwise
the last response received) together with the candidates actually queried,
in order. -/
def scanChainD (g : String → JsonData) (dflt : JsonData) :
    List String → JsonData × List String
  | [] => (dflt, [])
  | q :: qs =>
    let d := g q
    if isEmptyData d then
      let r := scanChainD g d qs
      (r.1, q :: r.2)
    else (d, [q])

/-- The prefix of a candidate list queried when stopping at the first
candidate with a non-empty response. -/
def queriesUntilHit (g : String → JsonData) : List String → List String
  | [] => []
  | q :: qs =>
    if isEmptyData (g q) then q :: queriesUntilHit g qs else [q]

/-- A never-throwing oracle built from a response function. -/
def okOracle (g : String → JsonData) : GeoOracle :=
  fun q => .ok (g q)

/-! ## Batch geocoding and the merge step -/

/-- One scraped listing record, exactly the fields pushed by the scrape
callback of the canonical scrape handler (`id`, `title`, `town`, `price`,
`link`, `image`, `url`). -/
structure Listing where
  id : Nat
  title : String
  town : String
  price : String
  link : String
  image : String
  url : String
deriving DecidableEq, Repr

/-- A listing with the geocoded coordinates attached
(`{ ...p, latitude, longitude }`). -/
structure EnrichedListing extends Listing where
  latitude : Option ℚ
  longitude : Option ℚ
deriving DecidableEq, Repr

/-- `[...new Set(list)]`: dedup keeping first occurrences in order. -/
def setDedup (l : List String) : List String :=
  l.foldl (fun acc t => if t ∈ acc then acc else acc ++ [t]) []

/-- The unique-towns list of `geocodeTownsAndAttach` (source lines 101-107):
trim every listing's town, drop empty and `"No town"`, dedup. -/
def uniqueTowns (ps : List Listing) : List String :=
  setDedup ((ps.map (fun p => jsTrim p.town)).filter
    (fun t => !(t == "") && !(t == "No town")))

/-- Resolve a list of towns in order through `geocodeTown`, threading
`GEO_CACHE` and building `townCoordMap`.  The source issues these lookups in
chunks of 5 concurrent calls; since the towns are pairwise distinct
(deduplicated), each call reads and writes only its own cache key, so the
chunked interleaving is observationally equal to this sequential fold. -/
def geocodeTownsFold (f : GeoOracle) :
    GeoCache → List String → GeoCache × List (String × GeoCoord)
  | cache, [] => (cache, [])
  | cache, t :: ts =>
    let run := geocodeTown f cache (some t)
    let rest := geocodeTownsFold f run.cache ts
    (rest.1, (t, run.result) :: rest.2)

/-- The merge step of `geocodeTownsAndAttach` (source lines 122-132): for
each listing, look up its trimmed town in the coordinate map and attach
`latitude`/`longitude` (`coords.lat ?? null`, so `null` both when the lookup
fails and when the cached coordinate is itself null).  Pure: builds new
records, the input listings are untouched. -/
def attachCoords (m : List (String × GeoCoord)) (ps : List Listing) :
    List EnrichedListing :=
  ps.map (fun p =>
    let coords := cacheGet m (jsTrim p.town)
    { toListing := p
      latitude := coords.bind (fun c => c.lat)
      longitude := coords.bind (fun c => c.lon) })

/-- Model of `geocodeTownsAndAttach(properties, log)` (source lines 99-133):
geocode the unique towns, then attach coordinates to every listing. -/
def geocodeTownsAndAttach (f : GeoOracle) (cache : GeoCache)
    (ps : List Listing) : GeoCache × List EnrichedListing :=
  let geo := geocodeTownsFold f cache (uniqueTowns ps)
  (geo.1, attachCoords geo.2 ps)

/-! ## Scrape-card extraction (title/town heuristic) -/

/-- The part of a listing card that the title/town extraction reads:
`box.querySelector("h2")?.textContent`, with `none` when the card has no
`h2` element. -/
structure Card where
  h2Text : Option String
deriving DecidableEq, Repr

/-- `box.querySelector("h2")?.textContent.trim() || "No title"`: the trimmed
text of the first `h2`, with the sentinel both when no `h2` exists and when
its trimmed text is the empty string (both are falsy). -/
def extractTitle (c : Card) : String :=
  match c.h2Text with
  | none => "No title"
  | some t => if jsTrim t = "" then "No title" else jsTrim t

/-- `title === "No title" ? "No town" : title` (scrape callback). -/
def extractTown (c : Card) : String :=
  if extractTitle c = "No title" then "No town" else extractTitle c

/-! ## HTTP handlers -/

/-- JSON envelope of a scrape-endpoint response body; a field holding `none`
is absent from the serialized object. -/
structure ScrapeRespBody where
  success : Bool
  error : Option String
  message : Option String
  properties : Option (List Listing)
deriving DecidableEq, Repr

/-- A scrape-endpoint HTTP response; `body = none` models the empty-string
body of the OPTIONS preflight answer. -/
structure ScrapeResponse where
  statusCode : Nat
  body : Option ScrapeRespBody
deriving DecidableEq, Repr

/-- Model of the canonical scrape handler (the `getProperties` variant that
answers `200` with `success: false` and `properties: []` on failure).  The
entire effectful browser pipeline (launch/connect, navigation, selector
wait, DOM extraction, browser close) is abstracted to its outcome
`scrape : Except String (List Listing)`, where `Except.error m` is a thrown
error with message `m` reaching the handler's `catch`; every claim settled
against this handler depends only on that outcome. -/
def scrapeHandler (scrape : Except String (List Listing)) (httpMethod : String)
    (urlParam : Option String) : ScrapeResponse :=
  if httpMethod = "OPTIONS" then ⟨200, none⟩
  else if urlParam.getD "" = "" then
    ⟨200, some ⟨false, some "Missing required query parameter: url",
      some "Missing required query parameter: url", some []⟩⟩
  else
    match scrape with
    | .error m =>
      ⟨200, some ⟨false, some m, some "Failed to scrape properties", some []⟩⟩
    | .ok ps => ⟨200, some ⟨true, none, none, some ps⟩⟩

/-- JSON envelope of a geocoding-endpoint response body (this handler's
failure bodies carry only `success` and `error`). -/
structure GeoRespBody where
  success : Bool
  error : Option String
  properties : Option (List EnrichedListing)
deriving DecidableEq, Repr

/-- A geocoding-endpoint HTTP response. -/
structure GeoResponse where
  statusCode : Nat
  body : Option GeoRespBody
deriving DecidableEq, Repr

/-- The request body of the geocoding endpoint after
`event.body ? JSON.parse(event.body) : {}` and the `properties`
destructuring: the parse threw (with the thrown `err.message`), or it
produced no `properties` array (absent body, non-object JSON, or a
non-array `properties` field), or it produced a `properties` array. -/
inductive GeoParse where
  | throws : String → GeoParse
  | noProps : GeoParse
  | props : List Listing → GeoParse
deriving DecidableEq, Repr

/-- Model of the geocoding-endpoint handler (source lines 139-191): OPTIONS
preflight, 405 on non-POST, 400 on a missing `properties` array, otherwise
geocode-and-attach; a thrown error is caught and answered as
`200` / `{ success: false, error }`. -/
def geoHandler (f : GeoOracle) (cache : GeoCache) (httpMethod : String)
    (body : GeoParse) : GeoResponse × GeoCache :=
  if httpMethod = "OPTIONS" then (⟨200, none⟩, cache)
  else if httpMethod ≠ "POST" then
    (⟨405, some ⟨false, some "Method not allowed", none⟩⟩, cache)
  else
    match body with
    | .throws msg =>
      (⟨200, some ⟨false,
        some (if msg = "" then "Failed to geocode" else msg), none⟩⟩, cache)
    | .noProps =>
      (⟨400, some ⟨false, some "Provide 'properties' array in request",
        none⟩⟩, cache)
    | .props ps =>
      let out := geocodeTownsAndAttach f cache ps
      (⟨200, some ⟨true, none, some out.2⟩⟩, out.1)

/-! ## Client-side marker fan-out (`App.jsx`) -/

/-- The floating-point trigonometry used by the fan-out offsets
(`Math.PI`, `Math.cos`, `Math.sin`), abstracted as parameters: the claims
about `fanOutGroup` are independent of the numeric values these produce, so
they are proved for every choice of `ops`. -/
structure TrigOps where
  pi : ℚ
  cos : ℚ → ℚ
  sin : ℚ → ℚ

/-- `metersToLat` (`App.jsx`): metres to latitude degrees. -/
def metersToLat (m : ℚ) : ℚ := m / 111320

/-- `metersToLng` (`App.jsx`): metres to longitude degrees at latitude
`lat`.  (In `ℚ` a division by zero yields `0` where JavaScript floats yield
an infinity; no claim depends on the numeric value.) -/
def metersToLng (ops : TrigOps) (m lat : ℚ) : ℚ :=
  m / (111320 * ops.cos (lat * ops.pi / 180))

/-- `group.map((p, i) => ...)`: map with the element index. -/
def mapWithIndex (f : Nat → EnrichedListing → EnrichedListing) :
    Nat → List EnrichedListing → List EnrichedListing
  | _, [] => []
  | i, p :: ps => f i p :: mapWithIndex f (i + 1) ps

/-- Model of `fanOutGroup(group, rMeters = 100)`: a singleton group is
returned as-is; otherwise every member is rebuilt with offset coordinates
around the first member's position.  A `null` coordinate of the first member
coerces to `0` in the JavaScript arithmetic (`null + x`, `null * x`), hence
the `getD 0`.  On the empty list the source destructures `group[0]`
(`undefined`) and throws a `TypeError`, modelled as `none`; `groupByCoord`
never produces an empty group. -/
def fanOutGroup (ops : TrigOps) (group : List EnrichedListing)
    (rMeters : ℚ) : Option (List EnrichedListing) :=
  if group.length = 1 then some group
  else
    match group with
    | [] => none
    | p0 :: _ =>
      let lat := p0.latitude.getD 0
      let lng := p0.longitude.getD 0
      some (mapWithIndex (fun i p =>
        let angle := 2 * ops.pi * (i : ℚ) / (group.length : ℚ)
        { p with
          latitude := some (lat + metersToLat (rMeters * ops.cos angle))
          longitude := some (lng + metersToLng ops (rMeters * ops.sin angle) lat) })
        0 group)

/-- Append a listing to the group of its coordinate key, creating the group
at the end on first sight of the key (`Map` insertion order). -/
def pushGrp (m : List ((Option ℚ × Option ℚ) × List EnrichedListing))
    (k : Option ℚ × Option ℚ) (p : EnrichedListing) :
    List ((Option ℚ × Option ℚ) × List EnrichedListing) :=
  match m with
  | [] => [(k, [p])]
  | g :: rest => if g.1 = k then (g.1, g.2 ++ [p]) :: rest else g :: pushGrp rest k p

/-- Model of `groupByCoord(properties)` (`App.jsx`): group by the
`` `${latitude},${longitude}` `` key.  The template-literal key is injective
on coordinate pairs (number rendering never contains `','`, and only `null`
renders as `"null"`), so the pair itself serves as the key. -/
def groupByCoord (properties : List EnrichedListing) :
    List (List EnrichedListing) :=
  (properties.foldl (fun m p => pushGrp m (p.latitude, p.longitude) p) []).map
    (fun g => g.2)

/-! ## Cache well-formedness -/

/-- The keys `geocodeTown` ever inserts: non-empty, not the sentinel, and
fixed by trimming. -/
def cacheWF (c : GeoCache) : Prop :=
  ∀ kv ∈ c, kv.1 ≠ "" ∧ kv.1 ≠ "No town" ∧ jsTrim kv.1 = kv.1

/-! ## Concrete instances used by the closed theorems below -/

/-- An oracle whose every query throws. -/
def errOracle : GeoOracle := fun _ => .error ()

/-- Response function on which only the fully stripped candidate `"A"`
resolves. -/
def w2 : String → JsonData := fun q =>
  if q = "A" then .arr [⟨some "46", some "14"⟩] else .arr []

/-- Response function giving a non-empty but unparseable first response for
`"X"` while the `", Slovenia"` fallback would parse fine. -/
def cexOracle : String → JsonData := fun q =>
  if q = "X" then .arr [⟨some "abc", some "abc"⟩]
  else if q = "X, Slovenia" then .arr [⟨some "46.05", some "14.5"⟩]
  else .arr []

/-- A one-entry geocode cache. -/
def cache1 : GeoCache := [("Kranj", ⟨some 46, some 14⟩)]

/-- A one-entry coordinate map. -/
def m0 : List (String × GeoCoord) := [("Kranj", ⟨some 46, some 14⟩)]

/-- A one-listing input list. -/
def ps0 : List Listing := [⟨1, "T", " Kranj ", "p", "l", "i", "u"⟩]

/-- Trigonometry instance for the closed fan-out checks. -/
def ops0 : TrigOps := ⟨0, fun _ => 0, fun _ => 0⟩

/-- Two enriched listings sharing one coordinate pair. -/
def fanPs : List EnrichedListing :=
  [⟨⟨1, "a", "t", "p", "l", "i", "u"⟩, some 46, some 14⟩,
   ⟨⟨2, "b", "t", "p", "l", "i", "u"⟩, some 46, some 14⟩]

/-! ## Helper lemmas: trimming -/

theorem dropWhile_head?_not (p : Char → Bool) (l : List Char) (x : Char)
    (h : (l.dropWhile p).head? = some x) : p x = false := by
  induction l with
  | nil => simp [List.dropWhile] at h
  | cons a t ih =>
    rw [List.dropWhile_cons] at h
    by_cases hpa : p a = true
    · rw [if_pos hpa] at h
      exact ih h
    · rw [if_neg hpa] at h
      simp only [List.head?_cons, Option.some.injEq] at h
      rw [← h]
      exact Bool.not_eq_true (p a) |>.mp hpa

theorem dropWhile_getLast?_eq (p : Char → Bool) (l : List Char)
    (h : l.dropWhile p ≠ []) : (l.dropWhile p).getLast? = l.getLast? := by
  induction l with
  | nil => simp [List.dropWhile] at h
  | cons a t ih =>
    rw [List.dropWhile_cons] at h ⊢
    by_cases hpa : p a = true
    · rw [if_pos hpa] at h ⊢
      have ht : t ≠ [] := by
        intro he
        rw [he] at h
        simp [List.dropWhile] at h
      rw [ih h]
      cases t with
      | nil => exact absurd rfl ht
      | cons b t' => rw [List.getLast?_cons_cons]
    · rw [if_neg hpa]

theorem dropWhile_eq_self (p : Char → Bool) (l : List Char)
    (h : ∀ x, l.head? = some x → p x = false) : l.dropWhile p = l := by
  cases l with
  | nil => rfl
  | cons a t =>
    rw [List.dropWhile_cons, if_neg]
    simp [h a rfl]

theorem trimChars_head?_not (l : List Char) (x : Char)
    (h : (trimChars l).head? = some x) : isJsWhitespace x = false := by
  unfold trimChars at h
  rw [List.head?_reverse] at h
  have hne : (l.dropWhile isJsWhitespace).reverse.dropWhile isJsWhitespace ≠ [] := by
    intro he
    rw [he] at h
    simp at h
  rw [dropWhile_getLast?_eq _ _ hne, List.getLast?_reverse] at h
  exact dropWhile_head?_not _ _ _ h

theorem trimChars_getLast?_not (l : List Char) (x : Char)
    (h : (trimChars l).getLast? = some x) : isJsWhitespace x = false := by
  unfold trimChars at h
  rw [List.getLast?_reverse] at h
  exact dropWhile_head?_not _ _ _ h

theorem trimChars_idem (l : List Char) : trimChars (trimChars l) = trimChars l := by
  conv_lhs => rw [trimChars]
  rw [dropWhile_eq_self _ _ (fun x hx => trimChars_head?_not l x hx)]
  rw [dropWhile_eq_self _ _ (fun x hx => by
    rw [List.head?_reverse] at hx
    exact trimChars_getLast?_not l x hx)]
  exact List.reverse_reverse _

theorem jsTrim_idem (s : String) : jsTrim (jsTrim s) = jsTrim s := by
  show (⟨trimChars (trimChars s.data)⟩ : String) = ⟨trimChars s.data⟩
  rw [trimChars_idem]

theorem trimChars_all_ws (l : List Char) (h : ∀ c ∈ l, isJsWhitespace c = true) :
    trimChars l = [] := by
  unfold trimChars
  rw [List.dropWhile_eq_nil_iff.mpr h]
  rfl

theorem jsTrim_eq_empty_of_all_ws (s : String)
    (h : s.data.all isJsWhitespace = true) : jsTrim s = "" := by
  show (⟨trimChars s.data⟩ : String) = ("" : String)
  rw [trimChars_all_ws s.data (by simpa [List.all_eq_true] using h)]

/-! ## Helper lemmas: the fallback chain as a scan over the candidate list -/

theorem scanChainD_snd (g : String → JsonData) (dflt : JsonData)
    (l : List String) : (scanChainD g dflt l).2 = queriesUntilHit g l := by
  induction l generalizing dflt with
  | nil => rfl
  | cons q qs ih =>
    simp only [scanChainD, queriesUntilHit]
    cases h : isEmptyData (g q)
    · simp [h]
    · simp [h, ih]

theorem acceptResult_empty (d : JsonData) (h : isEmptyData d = true) :
    acceptResult d = ⟨none, none⟩ := by
  cases d with
  | nonArray => rfl
  | arr ms =>
    cases ms with
    | nil => rfl
    | cons m rest => simp [isEmptyData] at h

theorem progLoopF_ok_succ (g : String → JsonData) (fuel : Nat) (data : JsonData)
    (t : String) :
    progLoopF (okOracle g) (fuel + 1) data t =
      if isEmptyData data then
        match lastCommaIdx t.data with
        | none => (Except.ok data, [])
        | some i =>
          ((progLoopF (okOracle g) fuel (g ⟨t.data.take i⟩) ⟨t.data.take i⟩).1,
           (⟨t.data.take i⟩ : String) ::
             (progLoopF (okOracle g) fuel (g ⟨t.data.take i⟩) ⟨t.data.take i⟩).2)
      else (Except.ok data, []) := by
  rfl

theorem stripCandsF_succ_eq (fuel : Nat) (l : List Char) :
    stripCandsF (fuel + 1) l =
      match lastCommaIdx l with
      | none => []
      | some i => l.take i :: stripCandsF fuel (l.take i) := by
  rfl

theorem scanChainD_cons (g : String → JsonData) (dflt : JsonData) (q : String)
    (qs : List String) :
    scanChainD g dflt (q :: qs) =
      if isEmptyData (g q) then
        ((scanChainD g (g q) qs).1, q :: (scanChainD g (g q) qs).2)
      else (g q, [q]) := by
  rfl

theorem progLoopF_scan (g : String → JsonData) (fuel : Nat) :
    ∀ (d : JsonData) (t : String), isEmptyData d = true →
      progLoopF (okOracle g) (fuel + 1) d t =
        (Except.ok (scanChainD g d (stripCandsStr (fuel + 1) t)).1,
         (scanChainD g d (stripCandsStr (fuel + 1) t)).2) := by
  induction fuel with
  | zero =>
    intro d t hd
    rw [progLoopF_ok_succ, if_pos hd]
    unfold stripCandsStr
    rw [stripCandsF_succ_eq]
    cases hci : lastCommaIdx t.data with
    | none => simp [scanChainD]
    | some i =>
      simp only [List.map_cons, List.map_nil, scanChainD_cons]
      cases hgn : isEmptyData (g ⟨t.data.take i⟩) <;>
        simp [progLoopF, scanChainD]
  | succ fuel ih =>
    intro d t hd
    rw [progLoopF_ok_succ, if_pos hd]
    unfold stripCandsStr
    rw [stripCandsF_succ_eq]
    cases hci : lastCommaIdx t.data with
    | none => simp [scanChainD]
    | some i =>
      simp only [List.map_cons, scanChainD_cons]
      cases hgn : isEmptyData (g ⟨t.data.take i⟩) with
      | false =>
        rw [progLoopF_ok_succ, hgn]
        simp
      | true =>
        rw [ih (g ⟨t.data.take i⟩) ⟨t.data.take i⟩ hgn]
        simp [stripCandsStr]

theorem progLoop_scan (g : String → JsonData) (d : JsonData) (t : String)
    (hd : isEmptyData d = true) :
    progLoop (okOracle g) d t =
      (Except.ok (scanChainD g d (stripCandidates t)).1,
       (scanChainD g d (stripCandidates t)).2) :=
  progLoopF_scan g t.length d t hd

theorem runChain_scan (g : String → JsonData) (town : String) :
    runChain (okOracle g) town =
      (Except.ok (scanChainD g (.arr []) (candidates town)).1,
       (scanChainD g (.arr []) (candidates town)).2) := by
  have hok : ∀ q, okOracle g q = Except.ok (g q) := fun q => rfl
  cases h1 : isEmptyData (g town) with
  | false => simp [runChain, candidates, hok, scanChainD_cons, h1]
  | true =>
    cases h2 : isEmptyData (g (town ++ ", Slovenia")) with
    | false =>
      have hp : progLoop (okOracle g) (g (town ++ ", Slovenia")) town =
          (Except.ok (g (town ++ ", Slovenia")), []) := by
        unfold progLoop
        rw [progLoopF_ok_succ, h2]
        simp
      simp [runChain, candidates, hok, scanChainD_cons, h1, h2, hp]
    | true =>
      have hp := progLoop_scan g (g (town ++ ", Slovenia")) town h2
      simp [runChain, candidates, hok, scanChainD_cons, h1, h2, hp]

theorem geocodeTown_uncached_scan (g : String → JsonData) (cache : GeoCache)
    (townRaw : Option String)
    (h1 : ¬(townOf townRaw = "" ∨ townOf townRaw = "No town"))
    (h2 : cacheHas cache (townOf townRaw) = false) :
    geocodeTown (okOracle g) cache townRaw =
      ⟨acceptResult (scanChainD g (.arr []) (candidates (townOf townRaw))).1,
       cacheSet cache (townOf townRaw)
         (acceptResult (scanChainD g (.arr []) (candidates (townOf townRaw))).1),
       (scanChainD g (.arr []) (candidates (townOf townRaw))).2⟩ := by
  unfold geocodeTown
  rw [if_neg h1, if_neg (by simp [h2]), runChain_scan]

/-! ## Helper lemmas: the cache -/

theorem cacheHas_iff (c : GeoCache) (k : String) :
    cacheHas c k = true ↔ ∃ kv ∈ c, kv.1 = k := by
  simp [cacheHas, List.any_eq_true]

theorem cacheGet_some_of_has (c : GeoCache) (k : String)
    (h : cacheHas c k = true) : ∃ v, cacheGet c k = some v := by
  induction c with
  | nil => simp [cacheHas] at h
  | cons kv rest ih =>
    by_cases hk : kv.1 == k
    · exact ⟨kv.2, by simp [cacheGet, List.find?_cons, hk]⟩
    · have h' : cacheHas rest k = true := by
        simpa [cacheHas, hk] using h
      obtain ⟨v, hv⟩ := ih h'
      refine ⟨v, ?_⟩
      simp only [cacheGet, List.find?_cons, hk] at hv ⊢
      simpa [hk] using hv

theorem cacheSet_wf (c : GeoCache) (k : String) (v : GeoCoord)
    (hwf : cacheWF c) (hk1 : k ≠ "") (hk2 : k ≠ "No town")
    (hk3 : jsTrim k = k) : cacheWF (cacheSet c k v) := by
  unfold cacheSet
  split
  · intro kv hkv
    rw [List.mem_map] at hkv
    obtain ⟨kv0, hkv0, hmap⟩ := hkv
    by_cases he : kv0.1 == k
    · rw [if_pos he] at hmap
      rw [← hmap]
      exact ⟨hk1, hk2, hk3⟩
    · rw [if_neg he] at hmap
      rw [← hmap]
      exact hwf kv0 hkv0
  · intro kv hkv
    rw [List.mem_append] at hkv
    rcases hkv with hkv | hkv
    · exact hwf kv hkv
    · simp only [List.mem_singleton] at hkv
      rw [hkv]
      exact ⟨hk1, hk2, hk3⟩

theorem cacheSet_has_mono (c : GeoCache) (k : String) (v : GeoCoord)
    (k' : String) (h : cacheHas c k' = true) :
    cacheHas (cacheSet c k v) k' = true := by
  obtain ⟨kv, hm, hk⟩ := (cacheHas_iff c k').mp h
  unfold cacheSet
  split
  · rw [cacheHas_iff]
    by_cases he : kv.1 == k
    · refine ⟨(k, v), List.mem_map.mpr ⟨kv, hm, by rw [if_pos he]⟩, ?_⟩
      have : kv.1 = k := by simpa using he
      rw [← this, hk]
    · exact ⟨kv, List.mem_map.mpr ⟨kv, hm, by rw [if_neg he]⟩, hk⟩
  · rw [cacheHas_iff]
    exact ⟨kv, List.mem_append_left _ hm, hk⟩

/-! ## Helper lemmas: fan-out -/

theorem mapWithIndex_length (f : Nat → EnrichedListing → EnrichedListing)
    (j : Nat) (l : List EnrichedListing) :
    (mapWithIndex f j l).length = l.length := by
  induction l generalizing j with
  | nil => rfl
  | cons a t ih => simp [mapWithIndex, ih]

theorem mapWithIndex_get (f : Nat → EnrichedListing → EnrichedListing)
    (j : Nat) (l : List EnrichedListing) (i : Nat) (h1 : i < l.length)
    (h2 : i < (mapWithIndex f j l).length) :
    (mapWithIndex f j l).get ⟨i, h2⟩ = f (j + i) (l.get ⟨i, h1⟩) := by
  induction l generalizing j i with
  | nil => simp at h1
  | cons a t ih =>
    cases i with
    | zero => simp [mapWithIndex]
    | succ n =>
      have hn1 : n < t.length := by simpa using h1
      have hn2 : n < (mapWithIndex f (j + 1) t).length := by
        rw [mapWithIndex_length]
        exact hn1
      show (mapWithIndex f (j + 1) t).get ⟨n, hn2⟩ = _
      rw [ih (j + 1) n hn1 hn2]
      congr 1
      omega

theorem pushGrp_ne_nil (m : List ((Option ℚ × Option ℚ) × List EnrichedListing))
    (k : Option ℚ × Option ℚ) (p : EnrichedListing)
    (hm : ∀ g ∈ m, g.2 ≠ []) : ∀ g ∈ pushGrp m k p, g.2 ≠ [] := by
  induction m with
  | nil =>
    intro g hg
    simp only [pushGrp, List.mem_singleton] at hg
    rw [hg]
    simp
  | cons g0 rest ih =>
    intro g hg
    simp only [pushGrp] at hg
    split at hg
    · rcases List.mem_cons.mp hg with hg | hg
      · rw [hg]
        simp
      · exact hm g (List.mem_cons_of_mem _ hg)
    · rcases List.mem_cons.mp hg with hg | hg
      · rw [hg]
        exact hm g0 (List.mem_cons_self _ _)
      · exact ih (fun g' hg' => hm g' (List.mem_cons_of_mem _ hg')) g hg

theorem groupByCoord_ne_nil (ps : List EnrichedListing) :
    ∀ g ∈ groupByCoord ps, g ≠ [] := by
  suffices h : ∀ (l : List EnrichedListing)
      (m : List ((Option ℚ × Option ℚ) × List EnrichedListing)),
      (∀ g ∈ m, g.2 ≠ []) →
      ∀ g ∈ l.foldl (fun m p => pushGrp m (p.latitude, p.longitude) p) m,
        g.2 ≠ [] by
    intro g hg
    simp only [groupByCoord, List.mem_map] at hg
    obtain ⟨g0, hg0, hq⟩ := hg
    rw [← hq]
    exact h ps [] (by simp) g0 hg0
  intro l
  induction l with
  | nil =>
    intro m hm
    simpa using hm
  | cons p t ih =>
    intro m hm
    simp only [List.foldl_cons]
    exact ih _ (pushGrp_ne_nil _ _ _ hm)

/-! ## Claim theorems -/

/-- C1, counterexample to the claim as stated.  For the town `"X"`, the
plain query returns a non-empty result whose first match has unparseable
coordinates (`"abc"`), while the next fallback query `"X, Slovenia"` would
return an accepted, finite-parsing match.  The claim demands that the
unparseable non-empty result be treated as empty and the fallback continue,
resolving to nulls only after all attempts; instead the code stops after the
single plain query (`queries = ["X"]`, not the full candidate list
`["X", "X, Slovenia"]`) and resolves to `{ lat: null, lon: null }` even
though a remaining fallback attempt parses to finite coordinates. -/
theorem geocodeTown_stops_on_unparseable_nonempty_cex :
    (geocodeTown (okOracle cexOracle) [] (some "X")).queries = ["X"]
    ∧ (geocodeTown (okOracle cexOracle) [] (some "X")).result = ⟨none, none⟩
    ∧ candidates "X" = ["X", "X, Slovenia"]
    ∧ isEmptyData (cexOracle "X") = false
    ∧ (acceptResult (cexOracle "X, Slovenia")).lat.isSome = true
    ∧ (acceptResult (cexOracle "X, Slovenia")).lon.isSome = true := by
  refine ⟨by decide, by decide, by decide, by decide, by decide, by decide⟩

/-- C1 (amended): for every town reaching the external-query phase, the
fallback chain stops at the first query whose response is non-empty; the
finite-parse acceptance check (`acceptResult`) is applied only to that final
response, and when it fails — or when every candidate query returns empty —
the town resolves to and is cached as `{ lat: null, lon: null }`, with no
further fallback queries issued.  (`scanChainD` walks the candidate list and
stops at the first non-empty response.) -/
theorem geocodeTown_first_nonempty_decides (g : String → JsonData)
    (cache : GeoCache) (townRaw : Option String)
    (h1 : ¬(townOf townRaw = "" ∨ townOf townRaw = "No town"))
    (h2 : cacheHas cache (townOf townRaw) = false) :
    (geocodeTown (okOracle g) cache townRaw).result =
        acceptResult (scanChainD g (.arr []) (candidates (townOf townRaw))).1
    ∧ (geocodeTown (okOracle g) cache townRaw).cache =
        cacheSet cache (townOf townRaw)
          (acceptResult (scanChainD g (.arr []) (candidates (townOf townRaw))).1) := by
  rw [geocodeTown_uncached_scan g cache townRaw h1 h2]
  exact ⟨rfl, rfl⟩

/-- C1 witness: the amended theorem applied at the concrete town
`"A, B"` with a concrete response function. -/
theorem geocodeTown_first_nonempty_decides_witness :
    (geocodeTown (okOracle w2) [] (some "A, B")).result =
        acceptResult (scanChainD w2 (.arr []) (candidates (townOf (some "A, B")))).1
    ∧ (geocodeTown (okOracle w2) [] (some "A, B")).cache =
        cacheSet [] (townOf (some "A, B"))
          (acceptResult (scanChainD w2 (.arr []) (candidates (townOf (some "A, B")))).1) :=
  geocodeTown_first_nonempty_decides w2 [] (some "A, B") (by decide) (by decide)

/-- C2 (confirmed): for a trimmed town name that is non-empty, not the
sentinel, and not cached, and an oracle none of whose issued queries throws,
the external queries are issued in exactly the candidate order — the plain
trimmed name, then the name with `", Slovenia"` appended, then the
successively shorter prefixes of the original trimmed name obtained by
repeatedly removing the last comma-delimited segment — stopping at the first
query whose result is non-empty (`queriesUntilHit`), the prefix sequence
ending when no comma remains in the candidate. -/
theorem geocodeTown_query_order (g : String → JsonData) (cache : GeoCache)
    (townRaw : Option String)
    (h1 : ¬(townOf townRaw = "" ∨ townOf townRaw = "No town"))
    (h2 : cacheHas cache (townOf townRaw) = false) :
    (geocodeTown (okOracle g) cache townRaw).queries =
      queriesUntilHit g (candidates (townOf townRaw)) := by
  rw [geocodeTown_uncached_scan g cache townRaw h1 h2]
  exact scanChainD_snd g _ _

/-- C2 witness: the concrete town `"A, B"` where only the fully stripped
candidate `"A"` resolves; the query order is
`["A, B", "A, B, Slovenia", "A"]`. -/
theorem geocodeTown_query_order_witness :
    (geocodeTown (okOracle w2) [] (some "A, B")).queries =
      queriesUntilHit w2 (candidates (townOf (some "A, B"))) :=
  geocodeTown_query_order w2 [] (some "A, B") (by decide) (by decide)

/-- C3 (confirmed): a thrown query error (network failure or non-success
HTTP status, `Except.error` of the oracle) never propagates out of
`geocodeTown`: whenever the fallback chain ends in a thrown error, the call
still returns `{ lat: null, lon: null }` and caches exactly that value for
the town.  (The model `geocodeTown` is total, so no input makes it raise.) -/
theorem geocodeTown_query_error_caught (f : GeoOracle) (cache : GeoCache)
    (townRaw : Option String)
    (h1 : ¬(townOf townRaw = "" ∨ townOf townRaw = "No town"))
    (h2 : cacheHas cache (townOf townRaw) = false)
    (h3 : (runChain f (townOf townRaw)).1 = Except.error ()) :
    geocodeTown f cache townRaw =
      ⟨⟨none, none⟩, cacheSet cache (townOf townRaw) ⟨none, none⟩,
        (runChain f (townOf townRaw)).2⟩ := by
  unfold geocodeTown
  rw [if_neg h1, if_neg (by simp [h2])]
  have hrc : runChain f (townOf townRaw) =
      (Except.error (), (runChain f (townOf townRaw)).2) := by
    rw [← h3]
  rw [hrc]

/-- C3 witness: an oracle whose every query throws, at the town `"Kranj"`. -/
theorem geocodeTown_query_error_caught_witness :
    geocodeTown errOracle [] (some "Kranj") =
      ⟨⟨none, none⟩, cacheSet [] (townOf (some "Kranj")) ⟨none, none⟩,
        (runChain errOracle (townOf (some "Kranj"))).2⟩ :=
  geocodeTown_query_error_caught errOracle [] (some "Kranj")
    (by decide) (by decide) rfl

/-- C4 (confirmed): when the trimmed town name is already a key of the
(well-formed) geocode cache, `geocodeTown` returns exactly the cached value
— including a cached `{ lat: null, lon: null }` failure — leaves the cache
unchanged, and issues zero external queries. -/
theorem geocodeTown_cache_hit (f : GeoOracle) (cache : GeoCache)
    (townRaw : Option String) (hwf : cacheWF cache)
    (hhit : cacheHas cache (townOf townRaw) = true) :
    ∃ v, cacheGet cache (townOf townRaw) = some v ∧
      geocodeTown f cache townRaw = ⟨v, cache, []⟩ := by
  obtain ⟨kv, hm, hk⟩ := (cacheHas_iff cache (townOf townRaw)).mp hhit
  have h1 : townOf townRaw ≠ "" := hk ▸ (hwf kv hm).1
  have h2 : townOf townRaw ≠ "No town" := hk ▸ (hwf kv hm).2.1
  obtain ⟨v, hv⟩ := cacheGet_some_of_has cache _ hhit
  refine ⟨v, hv, ?_⟩
  unfold geocodeTown
  rw [if_neg (by simp [h1, h2]), if_pos hhit, hv]
  rfl

/-- C4 witness: a cache holding `"Kranj"`, queried with the padded name
`" Kranj "` would also hit; here the exact key is used, with a throwing
oracle to make any (forbidden) external query visible. -/
theorem geocodeTown_cache_hit_witness :
    ∃ v, cacheGet cache1 (townOf (some "Kranj")) = some v ∧
      geocodeTown errOracle cache1 (some "Kranj") = ⟨v, cache1, []⟩ :=
  geocodeTown_cache_hit errOracle cache1 (some "Kranj")
    (by unfold cacheWF; decide) (by decide)

/-- C5 (confirmed): on the empty string, on a whitespace-only string, and on
the literal sentinel `"No town"`, `geocodeTown` returns
`{ lat: null, lon: null }` immediately: the cache is untouched and zero
external queries are issued. -/
theorem geocodeTown_skips_empty_and_sentinel (f : GeoOracle)
    (cache : GeoCache) (s : String)
    (h : s = "" ∨ s.data.all isJsWhitespace = true ∨ s = "No town") :
    geocodeTown f cache (some s) = ⟨⟨none, none⟩, cache, []⟩ := by
  have ht : townOf (some s) = "" ∨ townOf (some s) = "No town" := by
    rcases h with h | h | h
    · left
      rw [h]
      decide
    · left
      exact jsTrim_eq_empty_of_all_ws s h
    · right
      rw [h]
      decide
  unfold geocodeTown
  rw [if_pos ht]

/-- C5 witness: the whitespace-only string `" "`. -/
theorem geocodeTown_skips_empty_and_sentinel_witness :
    geocodeTown errOracle [] (some " ") = ⟨⟨none, none⟩, [], []⟩ :=
  geocodeTown_skips_empty_and_sentinel errOracle [] " "
    (Or.inr (Or.inl (by decide)))

/-- C6 (confirmed): for every input listing list and every coordinate map,
the merge of `geocodeTownsAndAttach` produces a new list of the same length
and order in which each record carries all fields of the corresponding input
record unchanged (`toListing`, including the ordinal `id`) plus `latitude`
and `longitude` taken from the coordinate-map entry for the record's trimmed
town string, both `null` when the lookup fails or the stored coordinate is
itself `null`; the input records are not mutated (the merge is a pure
function of them). -/
theorem attachCoords_merge_spec (m : List (String × GeoCoord))
    (ps : List Listing) :
    (attachCoords m ps).length = ps.length
    ∧ ∀ i (hp : i < ps.length) (ha : i < (attachCoords m ps).length),
        (attachCoords m ps).get ⟨i, ha⟩ =
          { toListing := ps.get ⟨i, hp⟩
            latitude := (cacheGet m (jsTrim (ps.get ⟨i, hp⟩).town)).bind
              (fun c => c.lat)
            longitude := (cacheGet m (jsTrim (ps.get ⟨i, hp⟩).town)).bind
              (fun c => c.lon) } := by
  constructor
  · simp [attachCoords]
  · intro i hp ha
    simp [attachCoords, List.get_eq_getElem, List.getElem_map]

/-- C6 witness: the merge applied to a one-listing list whose padded town
`" Kranj "` hits the map entry `"Kranj"`. -/
theorem attachCoords_merge_spec_witness :
    (attachCoords m0 ps0).length = ps0.length
    ∧ (attachCoords m0 ps0).get ⟨0, by decide⟩ =
        { toListing := ps0.get ⟨0, by decide⟩
          latitude := (cacheGet m0 (jsTrim (ps0.get ⟨0, by decide⟩).town)).bind
            (fun c => c.lat)
          longitude := (cacheGet m0 (jsTrim (ps0.get ⟨0, by decide⟩).town)).bind
            (fun c => c.lon) } :=
  ⟨(attachCoords_merge_spec m0 ps0).1,
   (attachCoords_merge_spec m0 ps0).2 0 (by decide) (by decide)⟩

/-- C7, counterexample to the claim as stated.  A non-POST request to the
geocoding endpoint is a failure outcome (`success: false`, status 405) whose
body carries no `properties` field at all — the claim demands `properties`
be present and equal to the empty array in every failure envelope of both
handlers. -/
theorem geoHandler_failure_omits_properties_cex :
    ∃ b, (geoHandler (okOracle cexOracle) [] "GET" GeoParse.noProps).1.body = some b
      ∧ b.success = false
      ∧ b.error = some "Method not allowed"
      ∧ b.properties = none :=
  ⟨⟨false, some "Method not allowed", none⟩, rfl, rfl, rfl, rfl⟩

/-- C7 (amended): the canonical scrape-endpoint handler includes
`properties: []` in every failure envelope (missing-`url` and caught fatal
errors alike), while the geocoding endpoint's failure envelopes (405 on
non-POST, 400 on a missing `properties` array, and caught exceptions) signal
`success: false` with an error message but omit the `properties` field
entirely. -/
theorem handlers_failure_properties_policy
    (scrape : Except String (List Listing)) (meth : String)
    (u : Option String) (f : GeoOracle) (cache : GeoCache) (meth2 : String)
    (p : GeoParse) :
    (∀ b, (scrapeHandler scrape meth u).body = some b → b.success = false →
        b.properties = some [])
    ∧ (∀ b, (geoHandler f cache meth2 p).1.body = some b → b.success = false →
        b.properties = none) := by
  constructor
  · intro b hb hs
    unfold scrapeHandler at hb
    split at hb
    · exact absurd hb (by simp)
    · split at hb
      · rw [Option.some.injEq] at hb
        rw [← hb]
      · split at hb
        · rw [Option.some.injEq] at hb
          rw [← hb]
        · rw [Option.some.injEq] at hb
          rw [← hb] at hs
          simp at hs
  · intro b hb hs
    unfold geoHandler at hb
    split at hb
    · exact absurd hb (by simp)
    · split at hb
      · rw [Option.some.injEq] at hb
        rw [← hb]
      · split at hb
        · rw [Option.some.injEq] at hb
          rw [← hb]
        · rw [Option.some.injEq] at hb
          rw [← hb]
        · simp only at hb
          rw [Option.some.injEq] at hb
          rw [← hb] at hs
          simp at hs

/-- C7 witness: the amended theorem applied at a failing scrape (thrown
message `"boom"`) and at a non-POST geocoding request. -/
theorem handlers_failure_properties_policy_witness :
    (ScrapeRespBody.mk false (some "boom") (some "Failed to scrape properties")
        (some [])).properties = some []
    ∧ (GeoRespBody.mk false (some "Method not allowed") none).properties = none :=
  ⟨(handlers_failure_properties_policy (Except.error "boom") "GET" (some "u")
      errOracle [] "GET" GeoParse.noProps).1 _ rfl rfl,
   (handlers_failure_properties_policy (Except.error "boom") "GET" (some "u")
      errOracle [] "GET" GeoParse.noProps).2 _ rfl rfl⟩

/-- C8, counterexample to the claim as stated.  A card whose `h2` element
exists but has empty text: the title element exists, yet the extracted title
degrades to the sentinel `"No title"` and the town to `"No town"`, so the
town neither equals the title nor is `"No town"` only in the no-element
case. -/
theorem extractTown_empty_title_cex :
    ¬(((Card.mk (some "")).h2Text.isSome = true →
        extractTown (Card.mk (some "")) = extractTitle (Card.mk (some "")))
      ∧ (extractTown (Card.mk (some "")) = "No town" ↔
          (Card.mk (some "")).h2Text = none)) := by
  decide

/-- C8 (amended): the extracted town equals the extracted title whenever the
title is not the sentinel `"No title"`; the town is `"No town"` whenever the
title is the sentinel (which happens both when no title element exists and
when an existing title's trimmed text is empty); and the town is `"No town"`
exactly when the title is the sentinel or the title is itself the literal
string `"No town"`. -/
theorem extractTown_sentinel_iff (c : Card) :
    (extractTitle c ≠ "No title" → extractTown c = extractTitle c)
    ∧ (extractTitle c = "No title" → extractTown c = "No town")
    ∧ (extractTown c = "No town" ↔
        (extractTitle c = "No title" ∨ extractTitle c = "No town")) := by
  refine ⟨?_, ?_, ?_⟩
  · intro h
    unfold extractTown
    rw [if_neg h]
  · intro h
    unfold extractTown
    rw [if_pos h]
  · unfold extractTown
    by_cases h : extractTitle c = "No title"
    · simp [h]
    · simp [h]

/-- C8 witness: a card with the padded title `" Kranj "`. -/
theorem extractTown_sentinel_iff_witness :
    extractTown (Card.mk (some " Kranj ")) = extractTitle (Card.mk (some " Kranj ")) :=
  (extractTown_sentinel_iff (Card.mk (some " Kranj "))).1 (by decide)

/-- C9 (confirmed): every `geocodeTown` call preserves the cache invariant —
all keys are non-empty, distinct from the sentinel `"No town"`, and fixed
points of trimming — and never removes an entry: every key present before
the call is present after it. -/
theorem geocodeTown_cache_invariant (f : GeoOracle) (cache : GeoCache)
    (townRaw : Option String) (hwf : cacheWF cache) :
    cacheWF (geocodeTown f cache townRaw).cache
    ∧ ∀ k, cacheHas cache k = true →
        cacheHas (geocodeTown f cache townRaw).cache k = true := by
  unfold geocodeTown
  by_cases hts : townOf townRaw = "" ∨ townOf townRaw = "No town"
  · rw [if_pos hts]
    exact ⟨hwf, fun k h => h⟩
  · rw [if_neg hts]
    by_cases hh : cacheHas cache (townOf townRaw) = true
    · rw [if_pos hh]
      exact ⟨hwf, fun k h => h⟩
    · rw [if_neg hh]
      have hk1 : townOf townRaw ≠ "" := fun h => hts (Or.inl h)
      have hk2 : townOf townRaw ≠ "No town" := fun h => hts (Or.inr h)
      have hk3 : jsTrim (townOf townRaw) = townOf townRaw :=
        jsTrim_idem (townRaw.getD "")
      have hrc : runChain f (townOf townRaw) =
          ((runChain f (townOf townRaw)).1, (runChain f (townOf townRaw)).2) := rfl
      rw [hrc]
      cases (runChain f (townOf townRaw)).1 with
      | error e =>
        exact ⟨cacheSet_wf cache _ _ hwf hk1 hk2 hk3,
          fun k h => cacheSet_has_mono cache _ _ k h⟩
      | ok d =>
        exact ⟨cacheSet_wf cache _ _ hwf hk1 hk2 hk3,
          fun k h => cacheSet_has_mono cache _ _ k h⟩

/-- C9 witness: starting from the empty (trivially well-formed) cache, one
resolving call keeps the invariant. -/
theorem geocodeTown_cache_invariant_witness :
    cacheWF (geocodeTown errOracle [] (some "Kranj")).cache :=
  (geocodeTown_cache_invariant errOracle [] (some "Kranj")
    (by unfold cacheWF; decide)).1

/-- C10 (confirmed): for every group produced by grouping listings on
identical coordinate pairs, `fanOutGroup` returns the group itself unchanged
when the group has exactly one member; and for every such group it returns a
list of the same length, in the same order, in which each record equals the
corresponding input record in every field except `latitude` and `longitude`
(the `toListing` projection carries exactly those fields). -/
theorem fanOutGroup_preserves_records (ops : TrigOps)
    (ps : List EnrichedListing) (r : ℚ) (group : List EnrichedListing)
    (hg : group ∈ groupByCoord ps) :
    ∃ out, fanOutGroup ops group r = some out
      ∧ (group.length = 1 → out = group)
      ∧ out.length = group.length
      ∧ ∀ i (h1 : i < group.length) (h2 : i < out.length),
          (out.get ⟨i, h2⟩).toListing = (group.get ⟨i, h1⟩).toListing := by
  have hne : group ≠ [] := groupByCoord_ne_nil ps group hg
  by_cases hlen : group.length = 1
  · refine ⟨group, ?_, fun _ => rfl, rfl, ?_⟩
    · unfold fanOutGroup
      rw [if_pos hlen]
    · intro i h1 h2
      rfl
  · cases group with
    | nil => exact absurd rfl hne
    | cons p0 rest =>
      simp only [fanOutGroup, if_neg hlen]
      refine ⟨_, rfl, fun hc => absurd hc hlen, mapWithIndex_length _ _ _, ?_⟩
      intro i h1 h2
      rw [mapWithIndex_get _ 0 _ i h1 h2]

/-- C10 witness: a two-listing group sharing one coordinate pair, produced
by `groupByCoord`. -/
theorem fanOutGroup_preserves_records_witness :
    ∃ out, fanOutGroup ops0 fanPs 100 = some out ∧ out.length = fanPs.length := by
  obtain ⟨out, h1, h2, h3, h4⟩ :=
    fanOutGroup_preserves_records ops0 fanPs 100 fanPs (by decide)
  exact ⟨out, h1, h3⟩
